import Mathlib

/-!
Verification of the category-tree / catalog-membership engine of the
federalpartsphilippines backend.  The definitions below are a shallow
embedding of the JavaScript source: Mongo documents become Lean
structures, `countDocuments` queries become list filters, and the
recursive cascading recomputation (which has no termination guarantee in
the source) is embedded with an explicit fuel parameter, `none` standing
for a non-terminating run.
-/

namespace FederalParts

/-- MongoDB object ids are modelled as strings. -/
abbrev Oid := String

/-- `mongoose.Types.ObjectId.isValid`: a 24 character hex string. -/
def isValidObjectId (s : String) : Bool :=
  s.length == 24 && s.toList.all (fun ch => ch.isDigit || ('a' ≤ ch && ch ≤ 'f'))

/-- A category document.  Fields are those of the category schema that the
verified operations read or write (`models/Category.js` plus the stored
`productCount` field the server's count functions read and update).
`productCount` is `Option` because the stored field can be absent, which the
routes test for (`categoryObj.productCount === undefined`). -/
structure Category where
  oid : Oid
  name : String
  slug : String
  parentCategory : Option Oid
  isActive : Bool
  order : Int
  productCount : Option Nat
  deriving Repr, DecidableEq

/-- A product document.  `category` is the scalar schema field
(`models/Product.js` line 52); `categories` is the runtime array path that
the linking routes manipulate — it is NOT a schema path (see
`productSchemaPaths`), which is exactly what claim C3 is about. -/
structure Product where
  oid : Oid
  category : Option String
  categories : List Oid
  isActive : Bool
  deriving Repr, DecidableEq

/-- The database: the Category and Product collections. -/
structure Store where
  categories : List Category
  products : List Product
  deriving Repr, DecidableEq

/-- `Category.findById(id)`. -/
def findCategoryById (s : Store) (i : Oid) : Option Category :=
  s.categories.find? (fun c => c.oid == i)

/-- `Product.countDocuments({ categories: categoryId, isActive: true })` —
the direct-count query used by `updateCategoryProductCount` and the
category routes (MongoDB array-membership match on the `categories` path). -/
def countByCategoriesArray (ps : List Product) (i : Oid) : Nat :=
  (ps.filter (fun p => p.categories.contains i && p.isActive)).length

/-- `Product.countDocuments({ category: categoryId, isActive: true })` —
the scalar-field count used by the category controller. -/
def countByScalarCategory (ps : List Product) (i : Oid) : Nat :=
  (ps.filter (fun p => p.category == some i && p.isActive)).length

/-! ### Product schema (models/Product.js) -/

/-- The top-level paths declared by `productSchema`
(`models/Product.js` lines 29-125). -/
def productSchemaPaths : List String :=
  ["name", "description", "price", "discountedPrice", "category", "images",
   "stock", "brand", "sku", "weight", "dimensions", "specifications",
   "reviews", "rating", "featured", "isActive", "isArchived",
   "createdAt", "updatedAt"]

/-- Persisting a product through the Product model: mongoose strict mode
(the default) drops every path that is not declared in the schema, so the
`categories` array path is not stored. -/
def saveThroughProductModel (p : Product) : Product :=
  { p with categories := [] }

/-! ### Product-category linking routes (server, part_002 lines 1757-1820) -/

/-- The link route's array update:
`if (!product.categories.includes(categoryId)) product.categories.push(categoryId)`. -/
def linkCategories (cats : List Oid) (categoryId : Oid) : List Oid :=
  if cats.contains categoryId then cats else cats ++ [categoryId]

/-- The unlink route's array update:
`const index = product.categories.indexOf(categoryId); if (index > -1) splice(index, 1)`
— removes the first occurrence when present, otherwise leaves the array alone. -/
def unlinkCategories (cats : List Oid) (categoryId : Oid) : List Oid :=
  if cats.contains categoryId then cats.erase categoryId else cats

/-! ### Slug derivation (models/Category.js lines 88-98, identical in the
second model variant) -/

/-- JavaScript `\w` (an ASCII word character). -/
def isWordChar (c : Char) : Bool :=
  ('a' ≤ c && c ≤ 'z') || ('A' ≤ c && c ≤ 'Z') || ('0' ≤ c && c ≤ '9') || c == '_'

/-- JavaScript `\s`, restricted to the ASCII whitespace characters occurring
in the modelled strings. -/
def isSpaceChar (c : Char) : Bool :=
  c == ' ' || c == '\t' || c == '\n' || c == '\r'

/-- A hyphen test, used to model `.replace of runs of two or more hyphens by '-'`. -/
def isHyphen (c : Char) : Bool := c == '-'

/-- Replace every maximal run of characters satisfying `p` by the single
character `rep`.  With `p` = whitespace this is `.replace(\s+ with '-')`;
with `p` = hyphen it is `.replace of runs of two or more hyphens by '-'` (a lone hyphen is unchanged
by either reading).  The flag records whether the previous character
belonged to a run. -/
def collapseRunsAux (p : Char → Bool) (rep : Char) : Bool → List Char → List Char
  | _, [] => []
  | inRun, c :: rest =>
    if p c then
      (if inRun then [] else [rep]) ++ collapseRunsAux p rep true rest
    else c :: collapseRunsAux p rep false rest

def collapseRuns (p : Char → Bool) (rep : Char) (l : List Char) : List Char :=
  collapseRunsAux p rep false l

/-- The pre-save slug derivation:
`name.toLowerCase().replace(/[^\w\s-]/g,'').replace(\s+ with '-') followed by .replace(--+ with '-')`. -/
def generateSlug (name : String) : String :=
  String.mk (collapseRuns isHyphen '-'
    (collapseRuns isSpaceChar '-'
      ((name.data.map Char.toLower).filter
        (fun c => isWordChar c || isSpaceChar c || c == '-'))))

/-- Modelled from the spec text of claim C10: "the name lowercased with
non-word characters stripped and whitespace runs collapsed to single
hyphens" — note that, read literally, this strips hyphens (a hyphen is not
a word character), unlike `generateSlug`, which keeps them. -/
def slugPerSpecText (name : String) : String :=
  String.mk (collapseRuns isSpaceChar '-'
    ((name.data.map Char.toLower).filter
      (fun c => isWordChar c || isSpaceChar c)))

/-- The pre-save hook guard:
`if (!this.slug || this.isModified("name")) this.slug = ...`. -/
def preSaveSlug (c : Category) (nameModified : Bool) : Category :=
  if c.slug == "" || nameModified then { c with slug := generateSlug c.name }
  else c

/-! ### Store updates shared by the category operations -/

/-- Case-insensitive name equality, modelling the duplicate-name query
`{ name: new RegExp("^" + name + "$", "i") }` for names whose characters
are regex literals. -/
def ciEq (a b : String) : Bool :=
  a.data.map Char.toLower == b.data.map Char.toLower

/-- JavaScript `String.prototype.trim()`: strip whitespace from both ends. -/
def trimString (s : String) : String :=
  String.mk (((s.data.dropWhile isSpaceChar).reverse.dropWhile
    isSpaceChar).reverse)

/-- `Category.findByIdAndUpdate(categoryId, { productCount: n, ... })`. -/
def setProductCount (s : Store) (i : Oid) (n : Nat) : Store :=
  { s with categories :=
      s.categories.map (fun c =>
        if c.oid == i then { c with productCount := some n } else c) }

/-- Persisting `category.parentCategory = p; category.save()`. -/
def setParent (s : Store) (i : Oid) (p : Option Oid) : Store :=
  { s with categories :=
      s.categories.map (fun c =>
        if c.oid == i then { c with parentCategory := p } else c) }

/-- `category.deleteOne()` / `findByIdAndDelete`. -/
def removeCategory (s : Store) (i : Oid) : Store :=
  { s with categories := s.categories.filter (fun c => !(c.oid == i)) }

/-- The structural part of the category collection: ids and parent
pointers.  Count updates leave it unchanged, which drives the termination
analysis of the cascading recomputation. -/
def structureOf (s : Store) : List (Oid × Option Oid) :=
  s.categories.map (fun c => (c.oid, c.parentCategory))

/-- Presence and parent pointer of `findById(i)`: `none` when the category
does not exist, otherwise `some` of its `parentCategory`. -/
def parentLookup (s : Store) (i : Oid) : Option (Option Oid) :=
  (findCategoryById s i).map (fun c => c.parentCategory)

/-! ### Cascading count recomputation (server, part_002 lines 331-358) -/

/-- `updateCategoryProductCount(categoryId)`: recounts the category's direct
products, persists the count, then recurses on the parent — with no
visited-set guard in the source.  `fuel` bounds the recursion depth of the
embedding; `none` models a run that never terminates.  The returned list is
the trace of category ids the recomputation was invoked on. -/
def updateCategoryProductCount : Nat → Store → Oid → Option (Store × List Oid)
  | 0, _, _ => none
  | n + 1, s, categoryId =>
    if !isValidObjectId categoryId then some (s, [])
    else
      let s' := setProductCount s categoryId
        (countByCategoriesArray s.products categoryId)
      match parentLookup s' categoryId with
      | none => some (s', [categoryId])
      | some none => some (s', [categoryId])
      | some (some p) =>
        match updateCategoryProductCount n s' p with
        | none => none
        | some r => some (r.1, categoryId :: r.2)

/-- The parent chain starting at `i` reaches a root (a missing category, an
invalid id, or a category whose `parentCategory` is null) within `n` parent
steps.  This is the decidable acyclicity budget under which the cascading
recomputation terminates. -/
def rootedWithin (s : Store) : Nat → Oid → Bool
  | 0, i =>
    !isValidObjectId i ||
      (match parentLookup s i with
       | some (some _) => false
       | _ => true)
  | n + 1, i =>
    !isValidObjectId i ||
      (match parentLookup s i with
       | some (some p) => rootedWithin s n p
       | _ => true)

/-- The cascading recomputation terminates when started at `i`. -/
def cascadeTerminates (s : Store) (i : Oid) : Prop :=
  ∃ n, (updateCategoryProductCount n s i).isSome

/-! ### recomputeAll (server, part_002 lines 360-405) -/

structure UpdateAllSummary where
  success : Bool
  totalCategories : Nat
  updated : Nat
  deriving Repr, DecidableEq

/-- The `for (const category of categories)` loop of
`updateAllCategoryProductCounts`: recount each snapshot category against the
product collection, write back only when the stored value differs, and count
the writes.  The product collection is never written by this function, so it
is passed once. -/
def updateAllLoop (products : List Product) :
    List Category → Store → Nat → Store × Nat
  | [], s, upd => (s, upd)
  | category :: rest, s, upd =>
    let productCount := countByCategoriesArray products category.oid
    if category.productCount != some productCount then
      updateAllLoop products rest
        (setProductCount s category.oid productCount) (upd + 1)
    else
      updateAllLoop products rest s upd

/-- `updateAllCategoryProductCounts()`. -/
def updateAllCategoryProductCounts (s : Store) : Store × UpdateAllSummary :=
  let r := updateAllLoop s.products s.categories s 0
  (r.1, { success := true, totalCategories := s.categories.length,
          updated := r.2 })

/-- Whether `updateAllCategoryProductCounts` writes a given snapshot
category: its stored count differs from the freshly computed one. -/
def staleCount (products : List Product) (c : Category) : Bool :=
  c.productCount != some (countByCategoriesArray products c.oid)

/-! ### GET /api/categories tree counts (server, part_002 lines 640-694) -/

/-- The children populated by
`populate({ path: "children", match: { isActive: true } })`
(sorting does not affect the aggregated counts and is not modelled). -/
def childrenActive (s : Store) (i : Oid) : List Category :=
  s.categories.filter (fun d => d.parentCategory == some i && d.isActive)

/-- `categoryObj.productCount` after the undefined-check at lines 663-670:
the stored field when present, otherwise the live membership-array count. -/
def storedOrLiveCount (s : Store) (c : Category) : Nat :=
  match c.productCount with
  | some n => n
  | none => countByCategoriesArray s.products c.oid

/-- Lines 672-684: in tree mode, when the populated children list is
non-empty, `totalProductCount` starts from the category's own count and adds
each (active) child's live count; with no children the field is absent. -/
def reportedTotalProductCount (s : Store) (c : Category) : Option Nat :=
  let children := childrenActive s c.oid
  if children.isEmpty then none
  else some (children.foldl
    (fun acc child => acc + countByCategoriesArray s.products child.oid)
    (storedOrLiveCount s c))

/-- Modelled from the claim text of C1: `d` is a descendant of `anc` when
walking `d`'s parent chain upward reaches `anc` within the given fuel. -/
def isDescendantWithin (s : Store) (anc : Oid) : Nat → Oid → Bool
  | 0, _ => false
  | n + 1, d =>
    match parentLookup s d with
    | some (some p) => p == anc || isDescendantWithin s anc n p
    | _ => false

/-- Modelled from the claim text of C1: the direct count of `c` plus the sum
of direct counts over the full descendant closure (all depths, active and
inactive categories alike), direct counts being membership-array counts of
active products. -/
def subtreeCountPerSpecText (s : Store) (c : Category) : Nat :=
  countByCategoriesArray s.products c.oid +
    ((s.categories.filter
        (fun d => isDescendantWithin s c.oid s.categories.length d.oid)).map
      (fun d => countByCategoriesArray s.products d.oid)).sum

/-! ### moveCategory (controller, part_003 lines 854-963) -/

inductive MoveResult
  | invalidId
  | notFound
  | invalidParentId
  | parentNotFound
  | selfParent
  | circularReference
  | duplicateSiblingName
  | saveConflict
  | movedToRoot (s : Store)
  | moved (s : Store)
  deriving Repr, DecidableEq

/-- The circular-reference while-loop (lines 913-926): walks `newParentId`'s
ancestor chain; `some true` when it reaches `target`, `some false` when it
exits at a root or a missing category, `none` when the fuel runs out — on
cyclic data the JavaScript loop never exits. -/
def ancestorWalkReaches (s : Store) (target : Oid) : Nat → Oid → Option Bool
  | 0, _ => none
  | n + 1, current =>
    if current == target then some true
    else match parentLookup s current with
      | none => some false
      | some none => some false
      | some (some p) => ancestorWalkReaches s target n p

/-- `exports.moveCategory`.  On the move-to-root branch the unique
`(name, parentCategory)` index can still reject the save (modelled as
`saveConflict`); on the checked branch the case-insensitive duplicate check
subsumes the exact-match index, so no separate conflict can occur there. -/
def moveCategory (s : Store) (i : Oid) (newParentId : Option Oid) :
    Option MoveResult :=
  if !isValidObjectId i then some .invalidId
  else match findCategoryById s i with
  | none => some .notFound
  | some category =>
    match newParentId with
    | none =>
        if s.categories.any (fun c =>
            !(c.oid == i) && c.name == category.name &&
              c.parentCategory == none)
        then some .saveConflict
        else some (.movedToRoot (setParent s i none))
    | some np =>
      if !isValidObjectId np then some .invalidParentId
      else if (findCategoryById s np).isNone then some .parentNotFound
      else if np == i then some .selfParent
      else match ancestorWalkReaches s i (s.categories.length + 2) np with
        | none => none
        | some true => some .circularReference
        | some false =>
          if s.categories.any (fun c =>
              ciEq c.name category.name && c.parentCategory == some np &&
                !(c.oid == i))
          then some .duplicateSiblingName
          else some (.moved (setParent s i (some np)))

/-! ### Category creation (server part_002 lines 776-836 and controller
part_003 lines 134-215) -/

inductive CreateResult
  | nameRequired
  | duplicateName
  | duplicateAtLevel
  | invalidParentId
  | parentNotFound
  | indexConflict
  | created (s : Store)
  deriving Repr, DecidableEq

/-- `category.save()` on a new document: the unique indexes on `slug` and on
`(name, parentCategory)` accept the insert or raise E11000
(`indexConflict`). -/
def saveNewCategory (s : Store) (c : Category) : CreateResult :=
  if s.categories.any (fun d => d.slug == c.slug) then .indexConflict
  else if s.categories.any (fun d =>
      d.name == c.name && d.parentCategory == c.parentCategory) then
    .indexConflict
  else .created { s with categories := s.categories ++ [c] }

/-- POST /api/categories (server route): requires a non-blank name, then
rejects when ANY category has exactly the same trimmed name — a global,
case-sensitive check, not a per-sibling one — then saves.  `oid` stands for
the id Mongo assigns to the new document. -/
def serverCreateCategory (s : Store) (name : String)
    (parentCategory : Option Oid) (oid : Oid) : CreateResult :=
  if trimString name == "" then .nameRequired
  else if s.categories.any (fun c => c.name == trimString name) then .duplicateName
  else saveNewCategory s
    { oid := oid, name := trimString name, slug := generateSlug (trimString name),
      parentCategory := parentCategory, isActive := true, order := 0,
      productCount := some 0 }

/-- `exports.createCategory` (controller): requires a non-blank name, then
rejects when a category under the same parent (null = root) matches the name
case-insensitively, then checks that the parent exists, then saves. -/
def createCategory (s : Store) (name : String)
    (parentCategory : Option Oid) (oid : Oid) : CreateResult :=
  if trimString name == "" then .nameRequired
  else
    match parentCategory with
    | some pc =>
      if !isValidObjectId pc then .invalidParentId
      else if s.categories.any (fun c =>
          ciEq c.name (trimString name) && c.parentCategory == some pc) then
        .duplicateAtLevel
      else if (findCategoryById s pc).isNone then .parentNotFound
      else saveNewCategory s
        { oid := oid, name := trimString name, slug := generateSlug (trimString name),
          parentCategory := some pc, isActive := true, order := 0,
          productCount := none }
    | none =>
      if s.categories.any (fun c =>
          ciEq c.name (trimString name) && c.parentCategory == none) then
        .duplicateAtLevel
      else saveNewCategory s
        { oid := oid, name := trimString name, slug := generateSlug (trimString name),
          parentCategory := none, isActive := true, order := 0,
          productCount := none }

/-! ### DELETE /api/categories/:id (server, part_002 lines 960-1024) -/

inductive DeleteResult
  | invalidId
  | notFound
  | hasChildren
  | hasProducts
  | deleted (s : Store) (recomputed : List Oid)
  deriving Repr, DecidableEq

/-- The delete route: children guard first, then the live membership-array
product count, then removal followed by the cascading recomputation of the
former parent (whose trace of invoked ids is carried in the result).  Image
file cleanup is not modelled.  The cascade can diverge on cyclic data, hence
the Option result. -/
def deleteCategoryRoute (s : Store) (i : Oid) : Option DeleteResult :=
  if !isValidObjectId i then some .invalidId
  else match findCategoryById s i with
  | none => some .notFound
  | some category =>
    if 0 < (s.categories.filter
        (fun c => c.parentCategory == some i)).length then
      some .hasChildren
    else if 0 < countByCategoriesArray s.products i then some .hasProducts
    else
      let s1 := removeCategory s i
      match category.parentCategory with
      | none => some (.deleted s1 [])
      | some p =>
        match updateCategoryProductCount (s1.categories.length + 2) s1 p with
        | none => none
        | some r => some (.deleted r.1 r.2)

/-! ### Concrete instances used by the closed theorems below -/

def oidA : Oid := "aaaaaaaaaaaaaaaaaaaaaaaa"

def oidB : Oid := "bbbbbbbbbbbbbbbbbbbbbbbb"

def oidC : Oid := "cccccccccccccccccccccccc"

def oidD : Oid := "dddddddddddddddddddddddd"

def oidE : Oid := "eeeeeeeeeeeeeeeeeeeeeeee"

def oidF : Oid := "ffffffffffffffffffffffff"

def oidNew : Oid := "0123456789abcdef01234567"

/-- Convenience constructor for a concrete active category. -/
def mkCategory (oid : Oid) (name : String) (parentCategory : Option Oid)
    (productCount : Option Nat) : Category :=
  { oid := oid, name := name, slug := generateSlug name,
    parentCategory := parentCategory, isActive := true, order := 0,
    productCount := productCount }

/-- Alpha <- Beta <- Gamma, plus root Epsilon with child "beta":
exercises all three move guards. -/
def moveStore : Store :=
  { categories :=
      [mkCategory oidA "Alpha" none (some 0),
       mkCategory oidB "Beta" (some oidA) (some 0),
       mkCategory oidC "Gamma" (some oidB) (some 0),
       mkCategory oidE "Epsilon" none (some 0),
       mkCategory oidF "beta" (some oidE) (some 0)],
    products := [] }

/-- Beta sits under Alpha whose stored count (5) is stale (live count 0);
Delta is an unrelated root.  Moving Beta under Delta succeeds. -/
def moveFrameStore : Store :=
  { categories :=
      [mkCategory oidA "Alpha" none (some 5),
       mkCategory oidD "Delta" none (some 0),
       mkCategory oidB "Beta" (some oidA) (some 0)],
    products := [] }

/-- `moveFrameStore` after the successful move of Beta under Delta: only
Beta's parent pointer changed. -/
def moveFrameStoreAfter : Store :=
  { categories :=
      [mkCategory oidA "Alpha" none (some 5),
       mkCategory oidD "Delta" none (some 0),
       mkCategory oidB "Beta" (some oidD) (some 0)],
    products := [] }

/-- A two-node parent cycle: corrupted data on which the cascading
recomputation never terminates. -/
def cycStore : Store :=
  { categories :=
      [mkCategory oidA "Alpha" (some oidB) (some 0),
       mkCategory oidB "Beta" (some oidA) (some 0)],
    products := [] }

/-- A two-node rooted chain: Alpha's parent is Beta, Beta is a root. -/
def chainStore : Store :=
  { categories :=
      [mkCategory oidA "Alpha" (some oidB) (some 0),
       mkCategory oidB "Beta" none (some 0)],
    products := [] }

/-- Root Alpha with children Beta (one linked active product) and Gamma
(no products): exercises all delete branches. -/
def deleteStore : Store :=
  { categories :=
      [mkCategory oidA "Alpha" none (some 3),
       mkCategory oidB "Beta" (some oidA) (some 1),
       mkCategory oidC "Gamma" (some oidA) (some 0)],
    products :=
      [{ oid := oidNew, category := none, categories := [oidB],
         isActive := true }] }

/-- "Widgets" exists under root "Parent"; no root category is named
"Widgets". -/
def createStore : Store :=
  { categories :=
      [mkCategory oidA "Parent" none (some 0),
       mkCategory oidB "Widgets" (some oidA) (some 0)],
    products := [] }

/-- A single root category "Engine Parts". -/
def engineStore : Store :=
  { categories := [mkCategory oidA "Engine Parts" none (some 0)],
    products := [] }

/-- Alpha's stored count (5) is stale, Beta's (0) is fresh. -/
def recomputeStore : Store :=
  { categories :=
      [mkCategory oidA "Alpha" none (some 5),
       mkCategory oidB "Beta" none (some 0)],
    products := [] }

/-- Alpha <- Beta <- Gamma with one active product linked (by membership
array) to the grandchild Gamma only; Alpha has no stored count. -/
def treeStore : Store :=
  { categories :=
      [mkCategory oidA "Alpha" none none,
       mkCategory oidB "Beta" (some oidA) none,
       mkCategory oidC "Gamma" (some oidB) none],
    products :=
      [{ oid := oidNew, category := none, categories := [oidC],
         isActive := true }] }

/-- `treeStore` without its product. -/
def treeStoreEmpty : Store :=
  { categories := treeStore.categories, products := [] }

/-- The grandchild-linked product used by the C1 witness. -/
def pWitness : Product :=
  { oid := oidNew, category := none, categories := [oidC], isActive := true }

/-! ## Theorems -/

/-! ### Claim C3 -/

/-- Claim C3: the Product schema declares only the scalar `category` field and
no `categories` array path; every product persisted through the model carries
no `categories` entries, and over any collection of schema-conforming
documents the recompute query `countDocuments({categories: c, isActive: true})`
evaluates to 0 — the very query (and the very path the linking routes mutate)
named in the claim. -/
theorem product_schema_has_no_categories_array :
    ("categories" ∉ productSchemaPaths ∧ "category" ∈ productSchemaPaths)
    ∧ (∀ p : Product, (saveThroughProductModel p).categories = [])
    ∧ (∀ (ps : List Product) (c : Oid),
        countByCategoriesArray (ps.map saveThroughProductModel) c = 0) := by
  refine ⟨⟨by decide, by decide⟩, fun p => rfl, fun ps c => ?_⟩
  induction ps with
  | nil => rfl
  | cons p rest ih =>
      simp [countByCategoriesArray, saveThroughProductModel, List.filter]

/-! ### Claim C7 -/

/-- Claim C7: linkProduct / unlinkProduct are idempotent on the product's
membership array: linking twice leaves exactly one occurrence of the
category id (from any starting array without duplicate occurrences of it,
the invariant the link route itself maintains), a link in the
already-linked state is a no-op, and unlinking an absent category is a
no-op. -/
theorem link_unlink_idempotent (cats : List Oid) (c : Oid) :
    (cats.count c ≤ 1 →
      (linkCategories (linkCategories cats c) c).count c = 1)
    ∧ (cats.contains c = true → linkCategories cats c = cats)
    ∧ (cats.contains c = false → unlinkCategories cats c = cats) := by
  refine ⟨fun hle => ?_, fun hmem => ?_, fun habs => ?_⟩
  · by_cases hc : c ∈ cats
    · have h1 : 1 ≤ cats.count c := List.one_le_count_iff.mpr hc
      have hcount : cats.count c = 1 := le_antisymm hle h1
      simp [linkCategories, hc, hcount]
    · simp [linkCategories, hc, List.count_append,
        List.count_eq_zero.mpr hc]
  · have hm : c ∈ cats := by simpa using hmem
    simp [linkCategories, hm]
  · have hm : c ∉ cats := by simpa using habs
    simp [unlinkCategories, hm]

/-- Witness for C7 at a concrete membership array. -/
theorem link_unlink_idempotent_witness :
    ((["a"] : List Oid).count "b" ≤ 1
      ∧ (linkCategories (linkCategories ["a"] "b") "b").count "b" = 1)
    ∧ (linkCategories ["a", "b"] "b" = ["a", "b"])
    ∧ (unlinkCategories ["a"] "b" = ["a"]) :=
  ⟨⟨by decide, (link_unlink_idempotent ["a"] "b").1 (by decide)⟩,
   (link_unlink_idempotent ["a", "b"] "b").2.1 (by decide),
   (link_unlink_idempotent ["a"] "b").2.2 (by decide)⟩

/-! ### Claim C10 -/

/-- Claim C10, counterexample: on a name containing a hyphen the derived
slug keeps the hyphen, while the claim's formula — non-word characters
stripped, whitespace runs to hyphens — removes it, so the claim's equation
fails at the concrete name "Self-Service". -/
theorem slug_claim_formula_fails_on_hyphen :
    generateSlug "Self-Service" = "self-service"
    ∧ slugPerSpecText "Self-Service" = "selfservice"
    ∧ generateSlug "Self-Service" ≠ slugPerSpecText "Self-Service" := by
  refine ⟨by decide, by decide, by decide⟩

/-- `Char.toLower` maps no character to a hyphen except the hyphen itself. -/
theorem toLower_eq_hyphen {c : Char} (h : Char.toLower c = '-') : c = '-' := by
  unfold Char.toLower at h
  by_cases hc : c.toNat ≥ 65 ∧ c.toNat ≤ 90
  · rw [if_pos hc] at h
    obtain ⟨h1, h2⟩ := hc
    set n := Char.toNat c with hn
    interval_cases n <;> exact absurd h (by decide)
  · rwa [if_neg hc] at h

/-- The whitespace-collapse of a hyphen-free list never starts with a
hyphen while inside a run. -/
theorem spaceCollapse_head_inRun (l : List Char)
    (hl : l.all (fun c => !isHyphen c) = true) :
    (collapseRunsAux isSpaceChar '-' true l).head? ≠ some '-' := by
  induction l with
  | nil => simp [collapseRunsAux]
  | cons c rest ih =>
      simp only [List.all_cons, Bool.and_eq_true] at hl
      by_cases hc : isSpaceChar c = true
      · simp [collapseRunsAux, hc]
        exact ih hl.2
      · simp [collapseRunsAux, hc]
        intro hceq
        rw [hceq] at hl
        simp [isHyphen] at hl

/-- On a list that does not start with a hyphen, the hyphen-collapse is
insensitive to its run flag. -/
theorem hyphenCollapse_true_of_head (l : List Char)
    (hl : l.head? ≠ some '-') :
    collapseRunsAux isHyphen '-' true l
      = collapseRunsAux isHyphen '-' false l := by
  cases l with
  | nil => rfl
  | cons c rest =>
      have hc : isHyphen c = false := by
        simp only [List.head?] at hl
        simp [isHyphen]
        intro heq; exact hl (by rw [heq])
      simp [collapseRunsAux, hc]

/-- Applying the hyphen-collapse after the whitespace-collapse of a
hyphen-free list changes nothing: each whitespace run became one isolated
hyphen. -/
theorem hyphenCollapse_on_spaceCollapse (l : List Char)
    (hl : l.all (fun c => !isHyphen c) = true) (b : Bool) :
    collapseRunsAux isHyphen '-' false (collapseRunsAux isSpaceChar '-' b l)
      = collapseRunsAux isSpaceChar '-' b l := by
  induction l generalizing b with
  | nil => rfl
  | cons c rest ih =>
      simp only [List.all_cons, Bool.and_eq_true] at hl
      have hch : isHyphen c = false := by
        have := hl.1
        simpa using this
      by_cases hc : isSpaceChar c = true
      · cases b with
        | true =>
            simp [collapseRunsAux, hc]
            exact ih hl.2 true
        | false =>
            simp [collapseRunsAux, hc, isHyphen]
            rw [hyphenCollapse_true_of_head _ (spaceCollapse_head_inRun rest hl.2)]
            exact ih hl.2 true
      · simp [collapseRunsAux, hc, hch]
        exact ih hl.2 false

/-- Claim C10, amended: for names containing no hyphen the derived slug is
exactly the claim's formula (lowercase, strip non-word characters, collapse
whitespace runs to single hyphens); hyphens in the name are kept, with runs
collapsed, which is the only deviation.  The slug is regenerated whenever
the name changes (and also when it was never set), and left alone
otherwise. -/
theorem slug_matches_spec_on_hyphen_free :
    (∀ name : String, name.data.all (fun c => !(c == '-')) = true →
        generateSlug name = slugPerSpecText name)
    ∧ (∀ c : Category, (preSaveSlug c true).slug = generateSlug c.name)
    ∧ (∀ c : Category, c.slug ≠ "" → (preSaveSlug c false).slug = c.slug) := by
  refine ⟨fun name h => ?_, fun c => ?_, fun c hs => ?_⟩
  · have hml : ∀ x ∈ name.data.map Char.toLower, (x == '-') = false := by
      intro x hx
      obtain ⟨ch, hch, rfl⟩ := List.mem_map.mp hx
      have hcne : ch ≠ '-' := by
        have := List.all_eq_true.mp h ch hch
        simpa using this
      have hne : Char.toLower ch ≠ '-' := fun heq => hcne (toLower_eq_hyphen heq)
      simpa using hne
    have hfil : ((name.data.map Char.toLower).filter
        (fun c => isWordChar c || isSpaceChar c || c == '-'))
        = ((name.data.map Char.toLower).filter
          (fun c => isWordChar c || isSpaceChar c)) := by
      apply List.filter_congr
      intro x hx
      rw [hml x hx]
      simp
    have hfree : ((name.data.map Char.toLower).filter
        (fun c => isWordChar c || isSpaceChar c)).all
          (fun c => !isHyphen c) = true := by
      rw [List.all_eq_true]
      intro x hx
      have hxm := List.mem_of_mem_filter hx
      simp [isHyphen, hml x hxm]
    unfold generateSlug slugPerSpecText collapseRuns
    rw [hfil, hyphenCollapse_on_spaceCollapse _ hfree]
  · simp [preSaveSlug]
  · have : (c.slug == "") = false := by
      simpa using hs
    simp [preSaveSlug, this]

/-- Witness for C10's amended statement at concrete inputs. -/
theorem slug_matches_spec_on_hyphen_free_witness :
    (("Engine Parts" : String).data.all (fun c => !(c == '-')) = true
      ∧ generateSlug "Engine Parts" = slugPerSpecText "Engine Parts")
    ∧ (preSaveSlug (mkCategory oidA "Engine Parts" none none) true).slug
        = generateSlug "Engine Parts"
    ∧ ((mkCategory oidA "Engine Parts" none none).slug ≠ ""
      ∧ (preSaveSlug (mkCategory oidA "Engine Parts" none none) false).slug
          = (mkCategory oidA "Engine Parts" none none).slug) :=
  ⟨⟨by decide, slug_matches_spec_on_hyphen_free.1 "Engine Parts" (by decide)⟩,
   slug_matches_spec_on_hyphen_free.2.1 (mkCategory oidA "Engine Parts" none none),
   ⟨by decide,
    slug_matches_spec_on_hyphen_free.2.2 (mkCategory oidA "Engine Parts" none none)
      (by decide)⟩⟩

/-! ### Claim C4 -/

/-- Claim C4: given a valid id for an existing category and a valid,
existing new parent, move fails with SelfParent when the new parent equals
the id, with CircularReference when walking the new parent's ancestor chain
reaches the id, and with DuplicateSiblingName when a category other than
the moved one with a case-insensitively equal name already sits under the
new parent. -/
theorem move_guards (s : Store) (i np : Oid) (cat : Category)
    (hv : isValidObjectId i = true)
    (hc : findCategoryById s i = some cat)
    (hvp : isValidObjectId np = true)
    (hp : (findCategoryById s np).isSome = true) :
    (np = i → moveCategory s i (some np) = some .selfParent)
    ∧ (np ≠ i →
        ancestorWalkReaches s i (s.categories.length + 2) np = some true →
        moveCategory s i (some np) = some .circularReference)
    ∧ (np ≠ i →
        ancestorWalkReaches s i (s.categories.length + 2) np = some false →
        s.categories.any (fun c =>
          ciEq c.name cat.name && c.parentCategory == some np &&
            !(c.oid == i)) = true →
        moveCategory s i (some np) = some .duplicateSiblingName) := by
  have hpn : (findCategoryById s np).isNone = false := by
    cases h2 : findCategoryById s np <;> simp_all
  refine ⟨fun heq => ?_, fun hne hw => ?_, fun hne hw hd => ?_⟩
  · subst heq
    simp [moveCategory, hv, hc, hvp, hpn]
  · have hbe : (np == i) = false := by simpa using hne
    simp [moveCategory, hv, hc, hvp, hpn, hbe, hw]
  · have hbe : (np == i) = false := by simpa using hne
    simp [moveCategory, hv, hc, hvp, hpn, hbe, hw, hd]

/-- Witness for C4: all three guards fire on `moveStore`. -/
theorem move_guards_witness :
    moveCategory moveStore oidB (some oidB) = some .selfParent
    ∧ moveCategory moveStore oidB (some oidC) = some .circularReference
    ∧ moveCategory moveStore oidB (some oidE) = some .duplicateSiblingName :=
  ⟨(move_guards moveStore oidB oidB (mkCategory oidB "Beta" (some oidA) (some 0))
      (by decide) (by decide) (by decide) (by decide)).1 rfl,
   (move_guards moveStore oidB oidC (mkCategory oidB "Beta" (some oidA) (some 0))
      (by decide) (by decide) (by decide) (by decide)).2.1 (by decide) (by decide),
   (move_guards moveStore oidB oidE (mkCategory oidB "Beta" (some oidA) (some 0))
      (by decide) (by decide) (by decide) (by decide)).2.2 (by decide) (by decide)
      (by decide)⟩

/-! ### Claim C5 -/

/-- Claim C5, counterexample: a successful move of Beta from Alpha to Delta
persists only the new parent pointer.  Alpha's stored count was a stale 5
(its live direct count is 0) and is STILL the stale 5 after the move — had
the move triggered a count recomputation on the old parent, the stored
value would have become 0.  No recomputation is triggered on either
parent. -/
theorem move_triggers_no_recompute :
    moveCategory moveFrameStore oidB (some oidD)
      = some (.moved moveFrameStoreAfter)
    ∧ (findCategoryById moveFrameStore oidA).map (fun c => c.productCount)
        = some (some 5)
    ∧ (findCategoryById moveFrameStoreAfter oidA).map (fun c => c.productCount)
        = some (some 5)
    ∧ countByCategoriesArray moveFrameStoreAfter.products oidA = 0
    ∧ (findCategoryById moveFrameStoreAfter oidD).map (fun c => c.productCount)
        = some (some 0) := by
  refine ⟨by decide, by decide, by decide, by decide, by decide⟩

/-- Claim C5, amended: a successful move persists the moved category's new
parentId and nothing else — the product collection is untouched, every
category's stored count (the old parent's and the new parent's included) is
unchanged, no count recomputation is triggered on either parent, and the
moved category's own direct and stored counts are unchanged. -/
theorem move_success_only_reparents (s : Store) (i np : Oid) (s2 : Store)
    (h : moveCategory s i (some np) = some (.moved s2)) :
    s2.products = s.products
    ∧ s2.categories = s.categories.map (fun c =>
        if c.oid == i then { c with parentCategory := some np } else c)
    ∧ s2.categories.map (fun c => c.productCount)
        = s.categories.map (fun c => c.productCount)
    ∧ ∀ j, countByCategoriesArray s2.products j
        = countByCategoriesArray s.products j := by
  have hs2 : s2 = setParent s i (some np) := by
    unfold moveCategory at h
    repeat' split at h
    all_goals simp_all
  subst hs2
  refine ⟨rfl, rfl, ?_, fun j => rfl⟩
  show (s.categories.map _).map _ = _
  rw [List.map_map]
  apply List.map_congr_left
  intro c _
  by_cases hcc : (c.oid == i) = true <;> simp [Function.comp, hcc]

/-- Witness for C5's amended statement at the concrete successful move. -/
theorem move_success_only_reparents_witness :
    moveFrameStoreAfter.products = moveFrameStore.products
    ∧ moveFrameStoreAfter.categories.map (fun c => c.productCount)
        = moveFrameStore.categories.map (fun c => c.productCount) :=
  ⟨(move_success_only_reparents moveFrameStore oidB oidD moveFrameStoreAfter
      (by decide)).1,
   (move_success_only_reparents moveFrameStore oidB oidD moveFrameStoreAfter
      (by decide)).2.2.1⟩

/-! ### Claim C8 -/

/-- The save step never reports a duplicate-name error: its only failure is
the unique-index conflict. -/
theorem saveNewCategory_ne_dup (s : Store) (c : Category) :
    (saveNewCategory s c = CreateResult.duplicateAtLevel → False)
    ∧ (saveNewCategory s c = CreateResult.duplicateName → False) := by
  unfold saveNewCategory
  split
  · simp
  · split <;> simp

/-- Claim C8, counterexample: the server's create rejects "Widgets" at root
with its duplicate-name error although the only "Widgets" lives under a
different parent (not a sibling), so the rejection is NOT "exactly when a
category under the same parent matches case-insensitively"; and the claim's
own scenario — creating root "engine parts" beside root "Engine Parts" —
passes the server route's duplicate-name check (exact, case-sensitive) and
dies later on the unique slug index instead. -/
theorem server_create_rejects_nonsibling :
    serverCreateCategory createStore "Widgets" none oidNew
      = CreateResult.duplicateName
    ∧ createStore.categories.any (fun c =>
        ciEq c.name "Widgets" && c.parentCategory == none) = false
    ∧ serverCreateCategory engineStore "engine parts" none oidNew
      = CreateResult.indexConflict
    ∧ engineStore.categories.any (fun c =>
        ciEq c.name "engine parts" && c.parentCategory == none) = true := by
  refine ⟨by decide, by decide, by decide, by decide⟩

/-- Claim C8, amended: for a non-blank name, the CONTROLLER's create fails
with the duplicate-at-level error exactly when a category under the same
parent (null meaning root) has a case-insensitively equal name — this is
the behaviour the claim describes — while the SERVER route's create fails
with its duplicate-name error exactly when any category anywhere has the
identical exact trimmed name (a global, case-sensitive check). -/
theorem create_duplicate_checks (s : Store) (name : String)
    (parent : Option Oid) (oid : Oid)
    (hn : (trimString name == "") = false)
    (hp : ∀ pc, parent = some pc → isValidObjectId pc = true) :
    (createCategory s name parent oid = .duplicateAtLevel ↔
      s.categories.any (fun c =>
        ciEq c.name (trimString name) && c.parentCategory == parent) = true)
    ∧ (serverCreateCategory s name parent oid = .duplicateName ↔
      s.categories.any (fun c => c.name == trimString name) = true) := by
  constructor
  · by_cases hany : s.categories.any (fun c =>
        ciEq c.name (trimString name) && c.parentCategory == parent) = true
    · rw [hany]
      refine iff_of_true ?_ rfl
      cases parent with
      | none => simp [createCategory, hn, hany]
      | some pc =>
          have hpc := hp pc rfl
          simp [createCategory, hn, hpc, hany]
    · have hany' : s.categories.any (fun c =>
          ciEq c.name (trimString name) && c.parentCategory == parent) = false := by
        simpa using hany
      rw [hany']
      refine iff_of_false ?_ (by simp)
      intro h
      cases parent with
      | none =>
          simp only [createCategory, hn, hany'] at h
          simp at h
          exact (saveNewCategory_ne_dup s _).1 h
      | some pc =>
          have hpc := hp pc rfl
          simp only [createCategory, hn, hpc, hany'] at h
          simp [hpc] at h
          split at h
          · simp at h
          · exact (saveNewCategory_ne_dup s _).1 h
  · by_cases hany : s.categories.any (fun c => c.name == trimString name) = true
    · rw [hany]
      refine iff_of_true ?_ rfl
      simp [serverCreateCategory, hn, hany]
    · have hany' : s.categories.any (fun c => c.name == trimString name) = false := by
        simpa using hany
      rw [hany']
      refine iff_of_false ?_ (by simp)
      intro h
      simp only [serverCreateCategory, hn, hany'] at h
      simp at h
      exact (saveNewCategory_ne_dup s _).2 h

/-- Witness for C8's amended statement: the scenario duplicate is caught by
the controller, and the server's global rejection fires on the
cross-parent name. -/
theorem create_duplicate_checks_witness :
    createCategory engineStore "engine parts" none oidNew
      = CreateResult.duplicateAtLevel
    ∧ serverCreateCategory createStore "Widgets" none oidNew
      = CreateResult.duplicateName :=
  ⟨(create_duplicate_checks engineStore "engine parts" none oidNew (by decide)
      (fun pc hpc => by simp at hpc)).1.mpr (by decide),
   (create_duplicate_checks createStore "Widgets" none oidNew (by decide)
      (fun pc hpc => by simp at hpc)).2.mpr (by decide)⟩

/-! ### Claims C2 and C6: the cascading recomputation -/

/-- Count writes do not change which categories exist nor their parent
pointers. -/
theorem parentLookup_setProductCount (s : Store) (j : Oid) (m : Nat) (i : Oid) :
    parentLookup (setProductCount s j m) i = parentLookup s i := by
  simp only [parentLookup, findCategoryById, setProductCount]
  induction s.categories with
  | nil => rfl
  | cons c rest ih =>
      by_cases hc : (c.oid == i) = true
      · by_cases hj : (c.oid == j) = true <;> simp [List.find?, hj, hc]
      · by_cases hj : (c.oid == j) = true <;> simp [List.find?, hj, hc] <;>
          simpa using ih

theorem rootedWithin_setProductCount (s : Store) (j : Oid) (m : Nat) :
    ∀ (n : Nat) (i : Oid),
      rootedWithin (setProductCount s j m) n i = rootedWithin s n i := by
  intro n
  induction n with
  | zero =>
      intro i
      unfold rootedWithin
      rw [parentLookup_setProductCount]
  | succ n ih =>
      intro i
      unfold rootedWithin
      rw [parentLookup_setProductCount]
      cases hpl : parentLookup s i with
      | none => rfl
      | some o =>
          cases o with
          | none => rfl
          | some p => simp [ih p]

theorem cascade_terminates_of_rooted :
    ∀ (n : Nat) (s : Store) (i : Oid), rootedWithin s n i = true →
      (updateCategoryProductCount (n + 1) s i).isSome = true := by
  intro n
  induction n with
  | zero =>
      intro s i h
      unfold updateCategoryProductCount
      by_cases hv : isValidObjectId i = true
      · unfold rootedWithin at h
        rw [hv] at h
        simp only [Bool.not_true, Bool.false_or] at h
        simp only [hv, Bool.not_true]
        rw [if_neg (by simp)]
        rw [parentLookup_setProductCount]
        cases hpl : parentLookup s i with
        | none => simp
        | some o =>
            cases o with
            | none => simp
            | some p => rw [hpl] at h; simp at h
      · rw [if_pos (by simp [hv])]
        simp
  | succ n ih =>
      intro s i h
      unfold updateCategoryProductCount
      by_cases hv : isValidObjectId i = true
      · unfold rootedWithin at h
        rw [hv] at h
        simp only [Bool.not_true, Bool.false_or] at h
        simp only [hv, Bool.not_true]
        rw [if_neg (by simp)]
        rw [parentLookup_setProductCount]
        cases hpl : parentLookup s i with
        | none => simp
        | some o =>
            cases o with
            | none => simp
            | some p =>
                rw [hpl] at h
                have hih := ih
                  (setProductCount s i (countByCategoriesArray s.products i)) p
                  (by rw [rootedWithin_setProductCount]; exact h)
                cases hcas : updateCategoryProductCount (n + 1)
                    (setProductCount s i (countByCategoriesArray s.products i)) p with
                | none => rw [hcas] at hih; simp at hih
                | some r => simp [hcas]
      · rw [if_pos (by simp [hv])]
        simp

theorem cascade_cycle_aux :
    ∀ (n : Nat) (s : Store),
      parentLookup s oidA = some (some oidB) →
      parentLookup s oidB = some (some oidA) →
      updateCategoryProductCount n s oidA = none
      ∧ updateCategoryProductCount n s oidB = none := by
  intro n
  induction n with
  | zero => intro s _ _; exact ⟨rfl, rfl⟩
  | succ n ih =>
      intro s hA hB
      have hA2 := parentLookup_setProductCount s oidA
        (countByCategoriesArray s.products oidA) oidA
      have hB2 := parentLookup_setProductCount s oidA
        (countByCategoriesArray s.products oidA) oidB
      have hA3 := parentLookup_setProductCount s oidB
        (countByCategoriesArray s.products oidB) oidA
      have hB3 := parentLookup_setProductCount s oidB
        (countByCategoriesArray s.products oidB) oidB
      constructor
      · have hrec := (ih (setProductCount s oidA
            (countByCategoriesArray s.products oidA))
          (by rw [hA2, hA]) (by rw [hB2, hB])).2
        unfold updateCategoryProductCount
        rw [if_neg (by decide)]
        simp only [hA2, hA, hrec]
      · have hrec := (ih (setProductCount s oidB
            (countByCategoriesArray s.products oidB))
          (by rw [hA3, hA]) (by rw [hB3, hB])).1
        unfold updateCategoryProductCount
        rw [if_neg (by decide)]
        simp only [hB3, hB, hrec]

theorem cascade_trace_head (n : Nat) (s : Store) (i : Oid)
    (r : Store × List Oid)
    (hv : isValidObjectId i = true)
    (h : updateCategoryProductCount (n + 1) s i = some r) :
    ∃ tr, r.2 = i :: tr := by
  unfold updateCategoryProductCount at h
  rw [if_neg (by simp [hv])] at h
  cases hpl : parentLookup
      (setProductCount s i (countByCategoriesArray s.products i)) i with
  | none =>
      simp only [hpl] at h
      simp only [Option.some.injEq] at h
      exact ⟨[], by rw [← h]⟩
  | some o =>
      cases o with
      | none =>
          simp only [hpl] at h
          simp only [Option.some.injEq] at h
          exact ⟨[], by rw [← h]⟩
      | some p =>
          simp only [hpl] at h
          cases hcas : updateCategoryProductCount n
              (setProductCount s i (countByCategoriesArray s.products i)) p with
          | none => simp only [hcas] at h; exact absurd h (by simp)
          | some r2 =>
              simp only [hcas, Option.some.injEq] at h
              exact ⟨r2.2, by rw [← h]⟩

theorem find_none_setProductCount (s : Store) (j : Oid) (m : Nat) (i : Oid)
    (h : findCategoryById s i = none) :
    findCategoryById (setProductCount s j m) i = none := by
  simp only [findCategoryById, setProductCount, List.find?_eq_none] at h ⊢
  intro c hc
  simp only [List.mem_map] at hc
  obtain ⟨d, hd, rfl⟩ := hc
  have := h d hd
  by_cases hj : (d.oid == j) = true <;> simp [hj] <;> simpa using this

theorem cascade_preserves_missing (i : Oid) :
    ∀ (n : Nat) (s : Store) (p : Oid) (r : Store × List Oid),
      updateCategoryProductCount n s p = some r →
      findCategoryById s i = none →
      findCategoryById r.1 i = none := by
  intro n
  induction n with
  | zero => intro s p r h _; simp [updateCategoryProductCount] at h
  | succ n ih =>
      intro s p r h hmiss
      unfold updateCategoryProductCount at h
      by_cases hv : isValidObjectId p = true
      · rw [if_neg (by simp [hv])] at h
        have hmiss2 := find_none_setProductCount s p
          (countByCategoriesArray s.products p) i hmiss
        cases hpl : parentLookup
            (setProductCount s p (countByCategoriesArray s.products p)) p with
        | none =>
            simp only [hpl, Option.some.injEq] at h
            rw [← h]; exact hmiss2
        | some o =>
            cases o with
            | none =>
                simp only [hpl, Option.some.injEq] at h
                rw [← h]; exact hmiss2
            | some q =>
                simp only [hpl] at h
                cases hcas : updateCategoryProductCount n
                    (setProductCount s p (countByCategoriesArray s.products p)) q with
                | none => simp only [hcas] at h; exact absurd h (by simp)
                | some r2 =>
                    simp only [hcas, Option.some.injEq] at h
                    have := ih _ q r2 hcas hmiss2
                    rw [← h]; exact this
      · rw [if_pos (by simp [hv])] at h
        simp only [Option.some.injEq] at h
        rw [← h]; exact hmiss

theorem find_removeCategory_self (s : Store) (i : Oid) :
    findCategoryById (removeCategory s i) i = none := by
  simp only [findCategoryById, removeCategory, List.find?_eq_none]
  intro c hc
  have := List.of_mem_filter hc
  simpa using this

/-- Claim C2, counterexample: on the two-node parent cycle the cascading
recomputation never terminates — there is no visited-set guard in
`updateCategoryProductCount` and no CycleDetected outcome; every fuel bound
is exhausted. -/
theorem cascade_diverges_on_cycle :
    parentLookup cycStore oidA = some (some oidB)
    ∧ parentLookup cycStore oidB = some (some oidA)
    ∧ ¬ cascadeTerminates cycStore oidA := by
  refine ⟨by decide, by decide, ?_⟩
  rintro ⟨n, hn⟩
  rw [(cascade_cycle_aux n cycStore (by decide) (by decide)).1] at hn
  simp at hn

/-- Claim C2, amended: the cascading recomputation terminates exactly on
data whose walked parent chain reaches a root — recursion is bounded by the
length of the ancestor chain.  The source has no visited-set guard and
surfaces no CycleDetected: on cyclic parent chains it recurses forever (see
the counterexample). -/
theorem cascade_terminates_when_rooted (s : Store) (i : Oid) (n : Nat)
    (h : rootedWithin s n i = true) :
    (updateCategoryProductCount (n + 1) s i).isSome = true :=
  cascade_terminates_of_rooted n s i h

/-- Witness for C2's amended statement on a rooted two-node chain. -/
theorem cascade_terminates_when_rooted_witness :
    rootedWithin chainStore 1 oidA = true
    ∧ (updateCategoryProductCount 2 chainStore oidA).isSome = true :=
  ⟨by decide, cascade_terminates_when_rooted chainStore oidA 1 (by decide)⟩

/-- Claim C6: the delete route fails with the children error when some
category has the deleted id as parent; with the zero-children state it
fails with the products error exactly when the LIVE membership-array count
of active products is positive (recounted from products, not read from the
stored field); and on success the category is removed and the cascading
count recomputation is invoked on the former parent (which appears in the
recompute trace), whenever that parent's chain is rooted so the cascade
completes. -/
theorem delete_guards_and_recompute (s : Store) (i : Oid) (cat : Category)
    (hv : isValidObjectId i = true)
    (hc : findCategoryById s i = some cat) :
    (0 < (s.categories.filter (fun c => c.parentCategory == some i)).length →
       deleteCategoryRoute s i = some .hasChildren)
    ∧ ((s.categories.filter (fun c => c.parentCategory == some i)).length = 0 →
       0 < countByCategoriesArray s.products i →
       deleteCategoryRoute s i = some .hasProducts)
    ∧ ((s.categories.filter (fun c => c.parentCategory == some i)).length = 0 →
       countByCategoriesArray s.products i = 0 →
       cat.parentCategory = none →
       deleteCategoryRoute s i = some (.deleted (removeCategory s i) []))
    ∧ (∀ p : Oid,
       (s.categories.filter (fun c => c.parentCategory == some i)).length = 0 →
       countByCategoriesArray s.products i = 0 →
       cat.parentCategory = some p →
       isValidObjectId p = true →
       rootedWithin (removeCategory s i)
         ((removeCategory s i).categories.length + 1) p = true →
       ∃ s2 tr, deleteCategoryRoute s i = some (.deleted s2 tr)
         ∧ p ∈ tr ∧ findCategoryById s2 i = none) := by
  refine ⟨fun hch => ?_, fun hch hpr => ?_, fun hch hpr hpar => ?_,
    fun p hch hpr hpar hvp hrt => ?_⟩
  · simp [deleteCategoryRoute, hv, hc, hch]
  · simp [deleteCategoryRoute, hv, hc, hch, hpr]
  · simp [deleteCategoryRoute, hv, hc, hch, hpr, hpar]
  · have hterm := cascade_terminates_of_rooted
      ((removeCategory s i).categories.length + 1) (removeCategory s i) p hrt
    cases hcas : updateCategoryProductCount
        ((removeCategory s i).categories.length + 2) (removeCategory s i) p with
    | none => rw [hcas] at hterm; simp at hterm
    | some r =>
        obtain ⟨tr, htr⟩ := cascade_trace_head
          ((removeCategory s i).categories.length + 1) (removeCategory s i) p r
          hvp hcas
        refine ⟨r.1, r.2, ?_, ?_, ?_⟩
        · simp [deleteCategoryRoute, hv, hc, hch, hpr, hpar, hcas]
        · rw [htr]; exact List.mem_cons_self p tr
        · exact cascade_preserves_missing i _ (removeCategory s i) p r hcas
            (find_removeCategory_self s i)

/-- Witness for C6: all three delete outcomes on `deleteStore`. -/
theorem delete_guards_and_recompute_witness :
    deleteCategoryRoute deleteStore oidA = some .hasChildren
    ∧ deleteCategoryRoute deleteStore oidB = some .hasProducts
    ∧ ∃ s2 tr, deleteCategoryRoute deleteStore oidC = some (.deleted s2 tr)
        ∧ oidA ∈ tr ∧ findCategoryById s2 oidC = none := by
  refine ⟨?_, ?_, ?_⟩
  · exact (delete_guards_and_recompute deleteStore oidA
      (mkCategory oidA "Alpha" none (some 3)) (by decide) (by decide)).1
      (by decide)
  · exact (delete_guards_and_recompute deleteStore oidB
      (mkCategory oidB "Beta" (some oidA) (some 1)) (by decide) (by decide)).2.1
      (by decide) (by decide)
  · exact (delete_guards_and_recompute deleteStore oidC
      (mkCategory oidC "Gamma" (some oidA) (some 0)) (by decide) (by decide)).2.2.2
      oidA (by decide) (by decide) (by decide) (by decide) (by decide)

/-! ### Claim C9: recomputeAll -/

/-- A count write changes exactly the targeted category's stored count. -/
theorem find_setProductCount (s : Store) (j : Oid) (m : Nat) (i : Oid) :
    findCategoryById (setProductCount s j m) i =
      if (i == j) = true then
        (findCategoryById s i).map (fun c => { c with productCount := some m })
      else findCategoryById s i := by
  simp only [findCategoryById, setProductCount]
  induction s.categories with
  | nil => cases hij : (i == j) <;> simp [hij]
  | cons c rest ih =>
      by_cases hc : (c.oid == i) = true
      · have hoid : c.oid = i := by simpa using hc
        by_cases hij : (i == j) = true
        · have hcj : (c.oid == j) = true := by rw [hoid]; exact hij
          simp [List.find?, hcj, hc, hij]
        · have hcj : (c.oid == j) = false := by
            rw [hoid]; simpa using hij
          simp [List.find?, hcj, hc, hij]
      · by_cases hj : (c.oid == j) = true <;>
          by_cases hij : (i == j) = true <;>
          simp only [List.map, List.find?, hj, hc, if_true, if_false] <;>
          simp [hj, hc, hij] <;>
          simpa [hij] using ih

theorem updateAllLoop_snd (products : List Product) :
    ∀ (cats : List Category) (s : Store) (upd : Nat),
      (updateAllLoop products cats s upd).2
        = upd + (cats.filter (staleCount products)).length := by
  intro cats
  induction cats with
  | nil => intro s upd; simp [updateAllLoop]
  | cons c rest ih =>
      intro s upd
      have hcond : (c.productCount !=
          some (countByCategoriesArray products c.oid)) = staleCount products c :=
        rfl
      cases hst : staleCount products c with
      | true =>
          simp only [updateAllLoop, hcond, hst, if_true]
          rw [ih]
          simp [List.filter, hst]
          omega
      | false =>
          simp only [updateAllLoop, hcond, hst, Bool.false_eq_true, if_false]
          rw [ih]
          simp [List.filter, hst]

theorem updateAllLoop_find_untouched (products : List Product) :
    ∀ (cats : List Category) (s : Store) (upd : Nat) (i : Oid),
      (∀ c ∈ cats, c.oid = i → staleCount products c = false) →
      findCategoryById (updateAllLoop products cats s upd).1 i
        = findCategoryById s i := by
  intro cats
  induction cats with
  | nil => intro s upd i _; rfl
  | cons c rest ih =>
      intro s upd i hfr
      have hcond : (c.productCount !=
          some (countByCategoriesArray products c.oid)) = staleCount products c :=
        rfl
      have hrest : ∀ d ∈ rest, d.oid = i → staleCount products d = false :=
        fun d hd => hfr d (List.mem_cons_of_mem c hd)
      cases hst : staleCount products c with
      | true =>
          have hne : (i == c.oid) = false := by
            by_contra hbe
            simp only [Bool.not_eq_false, beq_iff_eq] at hbe
            have := hfr c (List.mem_cons_self c rest) hbe.symm
            rw [hst] at this
            simp at this
          simp only [updateAllLoop, hcond, hst, if_true]
          rw [ih _ _ i hrest, find_setProductCount, hne]
          simp
      | false =>
          simp only [updateAllLoop, hcond, hst, Bool.false_eq_true, if_false]
          exact ih _ _ i hrest

theorem find_mem_nodup (cats : List Category) (c : Category)
    (hmem : c ∈ cats) (hnd : (cats.map (fun d => d.oid)).Nodup) :
    cats.find? (fun d => d.oid == c.oid) = some c := by
  induction cats with
  | nil => cases hmem
  | cons d rest ih =>
      simp only [List.map_cons, List.nodup_cons] at hnd
      rcases List.mem_cons.mp hmem with rfl | hmem2
      · simp [List.find?]
      · have hcm : c.oid ∈ rest.map (fun x => x.oid) :=
          List.mem_map_of_mem _ hmem2
        have hne : (d.oid == c.oid) = false := by
          by_contra hbe
          simp only [Bool.not_eq_false, beq_iff_eq] at hbe
          rw [hbe] at hnd
          exact hnd.1 hcm
        simp only [List.find?, hne]
        exact ih hmem2 hnd.2

theorem updateAllLoop_find_stale (products : List Product) :
    ∀ (cats : List Category) (s : Store) (upd : Nat) (c : Category),
      c ∈ cats → staleCount products c = true →
      (cats.map (fun d => d.oid)).Nodup →
      findCategoryById s c.oid = some c →
      findCategoryById (updateAllLoop products cats s upd).1 c.oid
        = some { c with
            productCount := some (countByCategoriesArray products c.oid) } := by
  intro cats
  induction cats with
  | nil => intro s upd c h; cases h
  | cons d rest ih =>
      intro s upd c hmem hst hnd hfind
      simp only [List.map_cons, List.nodup_cons] at hnd
      have hcond : (d.productCount !=
          some (countByCategoriesArray products d.oid)) = staleCount products d :=
        rfl
      rcases List.mem_cons.mp hmem with rfl | hmem2
      · simp only [updateAllLoop, hcond, hst, if_true]
        rw [updateAllLoop_find_untouched products rest _ _ c.oid ?frame]
        case frame =>
          intro e he hoid
          exfalso
          apply hnd.1
          rw [← hoid]
          exact List.mem_map_of_mem _ he
        rw [find_setProductCount]
        simp [hfind]
      · have hcm : c.oid ∈ rest.map (fun x => x.oid) :=
          List.mem_map_of_mem _ hmem2
        have hne : (c.oid == d.oid) = false := by
          by_contra hbe
          simp only [Bool.not_eq_false, beq_iff_eq] at hbe
          rw [← hbe] at hnd
          exact hnd.1 hcm
        have hfind2 : findCategoryById (setProductCount s d.oid
            (countByCategoriesArray products d.oid)) c.oid = some c := by
          rw [find_setProductCount, hne]
          simp [hfind]
        cases hstd : staleCount products d with
        | true =>
            simp only [updateAllLoop, hcond, hstd, if_true]
            exact ih _ _ c hmem2 hst hnd.2 hfind2
        | false =>
            simp only [updateAllLoop, hcond, hstd, Bool.false_eq_true, if_false]
            exact ih _ _ c hmem2 hst hnd.2 hfind

/-- Claim C9: `updateAllCategoryProductCounts` visits every category
(totalCategories is the snapshot length), persists a new count only for
categories whose freshly computed count differs from the stored one (the
others are untouched in the final store, the stale ones carry the fresh
count), and reports as `updated` exactly the number of categories
written. -/
theorem recompute_all_summary (s : Store)
    (hnd : (s.categories.map (fun c => c.oid)).Nodup) :
    (updateAllCategoryProductCounts s).2.totalCategories = s.categories.length
    ∧ (updateAllCategoryProductCounts s).2.updated
        = (s.categories.filter (staleCount s.products)).length
    ∧ (∀ i : Oid, (∀ c ∈ s.categories, c.oid = i →
          staleCount s.products c = false) →
        findCategoryById (updateAllCategoryProductCounts s).1 i
          = findCategoryById s i)
    ∧ (∀ c ∈ s.categories, staleCount s.products c = true →
        findCategoryById (updateAllCategoryProductCounts s).1 c.oid
          = some { c with
              productCount := some (countByCategoriesArray s.products c.oid) }) := by
  refine ⟨rfl, ?_, fun i h => ?_, fun c hc hst => ?_⟩
  · have := updateAllLoop_snd s.products s.categories s 0
    simpa [updateAllCategoryProductCounts] using this
  · exact updateAllLoop_find_untouched s.products s.categories s 0 i h
  · exact updateAllLoop_find_stale s.products s.categories s 0 c hc hst hnd
      (by
        have : s.categories.find? (fun d => d.oid == c.oid) = some c :=
          find_mem_nodup s.categories c hc hnd
        simpa [findCategoryById] using this)

/-- Witness for C9 on a store with one stale and one fresh count. -/
theorem recompute_all_summary_witness :
    (updateAllCategoryProductCounts recomputeStore).2.totalCategories = 2
    ∧ (updateAllCategoryProductCounts recomputeStore).2.updated = 1
    ∧ findCategoryById (updateAllCategoryProductCounts recomputeStore).1 oidB
        = findCategoryById recomputeStore oidB
    ∧ findCategoryById (updateAllCategoryProductCounts recomputeStore).1 oidA
        = some (mkCategory oidA "Alpha" none (some 0)) := by
  have h := recompute_all_summary recomputeStore (by decide)
  refine ⟨by rw [h.1]; decide, ?_, ?_, ?_⟩
  · rw [h.2.1]; decide
  · exact h.2.2.1 oidB (by decide)
  · have h2 := h.2.2.2 (mkCategory oidA "Alpha" none (some 5)) (by decide)
      (by decide)
    exact h2

/-! ### Claim C1: the reported subtree count -/

/-- The route's accumulation loop is a sum over the children. -/
theorem foldl_add_eq_sum (f : Category → Nat) :
    ∀ (l : List Category) (init : Nat),
      l.foldl (fun acc child => acc + f child) init = init + (l.map f).sum := by
  intro l
  induction l with
  | nil => intro init; simp
  | cons c rest ih =>
      intro init
      simp only [List.foldl, List.map, List.sum_cons]
      rw [ih]
      omega

theorem count_append (ps qs : List Product) (i : Oid) :
    countByCategoriesArray (ps ++ qs) i
      = countByCategoriesArray ps i + countByCategoriesArray qs i := by
  simp [countByCategoriesArray, List.filter_append]

theorem count_single_zero (p : Product) (i : Oid)
    (h : p.categories.contains i = false) :
    countByCategoriesArray [p] i = 0 := by
  simp only [countByCategoriesArray, List.filter]
  rw [show (p.categories.contains i && p.isActive) = false from by
    rw [h]; rfl]
  rfl

/-- Claim C1, amended: the `totalProductCount` reported by the tree-mode
category listing equals the category's own (stored-or-live) count plus the
sum of the live direct counts of its immediate ACTIVE children only — and
it is attached only when that children list is non-empty.  Products linked
solely to deeper descendants (or to inactive children) contribute nothing:
adding such a product leaves the reported count unchanged. -/
theorem reported_count_is_one_level (s : Store) (c : Category) (p : Product)
    (hp : p.categories.all (fun x => !(x == c.oid)
        && (childrenActive s c.oid).all (fun d => !(d.oid == x))) = true) :
    reportedTotalProductCount s c
      = (if (childrenActive s c.oid).isEmpty then none
         else some (storedOrLiveCount s c
           + ((childrenActive s c.oid).map
               (fun d => countByCategoriesArray s.products d.oid)).sum))
    ∧ reportedTotalProductCount { s with products := s.products ++ [p] } c
      = reportedTotalProductCount s c := by
  have hall := List.all_eq_true.mp hp
  have hnotc : p.categories.contains c.oid = false := by
    by_contra hcc
    simp only [Bool.not_eq_false] at hcc
    have hmem : c.oid ∈ p.categories := by simpa using hcc
    have := hall c.oid hmem
    simp at this
  have hnotd : ∀ d ∈ childrenActive s c.oid,
      p.categories.contains d.oid = false := by
    intro d hd
    by_contra hcc
    simp only [Bool.not_eq_false] at hcc
    have hmem : d.oid ∈ p.categories := by simpa using hcc
    have h2 := hall d.oid hmem
    rw [Bool.and_eq_true] at h2
    have h3 := List.all_eq_true.mp h2.2 d hd
    simp at h3
  have hcount : ∀ i : Oid, p.categories.contains i = false →
      countByCategoriesArray (s.products ++ [p]) i
        = countByCategoriesArray s.products i := by
    intro i hi
    rw [count_append, count_single_zero p i hi]
    omega
  constructor
  · simp only [reportedTotalProductCount]
    split
    · rfl
    · rw [foldl_add_eq_sum]
  · simp only [reportedTotalProductCount]
    have hch : childrenActive { s with products := s.products ++ [p] } c.oid
        = childrenActive s c.oid := rfl
    rw [hch]
    split
    · rfl
    · rw [foldl_add_eq_sum, foldl_add_eq_sum]
      have hinit : storedOrLiveCount { s with products := s.products ++ [p] } c
          = storedOrLiveCount s c := by
        simp only [storedOrLiveCount]
        cases c.productCount with
        | some n => rfl
        | none => exact hcount c.oid hnotc
      rw [hinit]
      have hmap : (childrenActive s c.oid).map
          (fun d => countByCategoriesArray (s.products ++ [p]) d.oid)
          = (childrenActive s c.oid).map
            (fun d => countByCategoriesArray s.products d.oid) := by
        apply List.map_congr_left
        intro d hd
        exact hcount d.oid (hnotd d hd)
      rw [hmap]

/-- Claim C1, counterexample: in Alpha <- Beta <- Gamma with one active
product linked to the grandchild Gamma, the route reports 0 for Alpha while
the claim's closure formula (direct counts summed over ALL descendants)
gives 1 — the reported count is not the subtree aggregate the claim
describes. -/
theorem reported_count_misses_grandchild :
    reportedTotalProductCount treeStore (mkCategory oidA "Alpha" none none)
      = some 0
    ∧ subtreeCountPerSpecText treeStore (mkCategory oidA "Alpha" none none)
      = 1
    ∧ (mkCategory oidA "Alpha" none none) ∈ treeStore.categories := by
  refine ⟨by decide, by decide, by decide⟩

/-- Witness for C1's amended statement: adding the grandchild-linked
product does not change Alpha's reported count. -/
theorem reported_count_is_one_level_witness :
    pWitness.categories.all (fun x => !(x == oidA)
      && (childrenActive treeStoreEmpty oidA).all (fun d => !(d.oid == x))) = true
    ∧ reportedTotalProductCount
        { treeStoreEmpty with products := treeStoreEmpty.products ++ [pWitness] }
        (mkCategory oidA "Alpha" none none)
      = reportedTotalProductCount treeStoreEmpty
          (mkCategory oidA "Alpha" none none) :=
  ⟨by decide,
   (reported_count_is_one_level treeStoreEmpty
     (mkCategory oidA "Alpha" none none) pWitness (by decide)).2⟩

end FederalParts
